import Mathlib

/-!
# A shallow embedding of the `gontainer` dependency-injection core

This file embeds the central parts of the NVIDIA `gontainer` Go library
(`registry.go`, `container.go`, `optional.go`, the events broker) as
executable Lean definitions, and proves the frozen specification claims
against them.

Modelling conventions:

* `reflect.Type` is modelled by an opaque identifier `Ty := Nat`; the
  reflective predicates (`isContextInterface`, `isOptionalType`,
  `isMultipleType`, `isNonEmptyInterface`, `isEmptyInterface`,
  `Implements`) become fields of a `TySys` parameter.
* `reflect.Value` is modelled by the inductive `Value`; the optional box
  built by `newOptionalValue` and the multiple box are constructors.
* The mutable per-factory state (spawned flag, output values) and the
  registry-level `sequence` slice become an explicit `RState` record
  which every operation threads through.  The per-factory `calls`
  counter is ghost instrumentation counting how many times
  `factory.funcValue.Call` has run (the Go code has no such counter; it
  is needed to state the at-most-once invocation claims).
* The Go recursion `spawnFactory` → `resolveService` → `resolveByType`
  → `spawnFactory` is bounded in Go by the runtime stack-depth guard
  (`getStackDepth() >= stackDepthLimit`), which grows at every nested
  call.  The embedding mirrors this with a `fuel : Nat` parameter that
  every nested call decrements; exhausted fuel yields the same
  `ErrStackLimitReached` outcome.
* Goroutine-based service functions (`isServiceFunc` /
  `startServiceFunc`) are concurrency and are not modelled; outputs are
  stored as plain values.  No claim in scope depends on that rewrite
  step.
-/

namespace Gontainer

/-- An opaque identifier standing for a `reflect.Type`. -/
abbrev Ty := Nat

/-- The reflective type-classification environment used by `registry.go`:
`isContextInterface`, `isOptionalType`, `isMultipleType`,
`isNonEmptyInterface`, `isEmptyInterface` and `Type.Implements`. -/
structure TySys where
  isContext : Ty → Bool
  optionalInner : Ty → Option Ty
  multipleInner : Ty → Option Ty
  isNonEmptyInterface : Ty → Bool
  isEmptyInterface : Ty → Bool
  implements : Ty → Ty → Bool

/-- A model of `reflect.Value` as it flows through the registry:
ordinary service values, zero values (`reflect.New(t).Elem()`), the
optional box built by `newOptionalValue`, the multiple box, and the
per-factory context value substituted for `context.Context` inputs. -/
inductive Value where
  | base (t : Ty) (tag : Nat)
  | zero (t : Ty)
  | optBox (boxT : Ty) (v : Value)
  | multiBox (boxT : Ty) (vs : List Value)
  | ctxOf (fidx : Nat)


/-- The accessor of the optional box (`Optional[T].Get`). -/
def optGet : Value → Option Value
  | .optBox _ v => some v
  | _ => none

/-- The immutable part of one registered factory (`factory` in
`registry.go` / README: `source.name`, `source.source`, `inTypes`,
`outTypes`, `outError`, `funcValue`).  `call n ins` gives the result of
the `n`-th invocation of `funcValue.Call(ins)` split the way
`spawnFactory` splits it: the non-error output values, and the trailing
error value when `outError` is set (`none` models a nil error). -/
structure GoFactory where
  name : String
  source : String
  inTypes : List Ty
  outTypes : List Ty
  outError : Bool
  call : Nat → List Value → List Value × Option String

/-- A do-nothing placeholder factory (out-of-range accesses never happen
on the runs the theorems talk about). -/
def defaultFactory : GoFactory :=
  { name := "", source := "", inTypes := [], outTypes := [],
    outError := false, call := fun _ _ => ([], none) }

instance : Inhabited GoFactory := ⟨defaultFactory⟩

/-- The mutable state of one factory: the `spawned` flag, the stored
`outValues` (`none` until `setOutValues` runs), and the ghost invocation
counter. -/
structure FacState where
  spawned : Bool
  outValues : Option (List Value)
  calls : Nat


instance : Inhabited FacState := ⟨⟨false, none, 0⟩⟩

/-- The mutable registry state: one `FacState` per registered factory
(positionally) plus the spawn-order `sequence` of factory indices. -/
structure RState where
  fac : List FacState
  sequence : List Nat


/-- Initial state for a registry of `n` factories: nothing spawned, no
outputs, empty sequence. -/
def initState (n : Nat) : RState :=
  { fac := List.replicate n ⟨false, none, 0⟩, sequence := [] }

/-- Read a factory state (total, with a default). -/
def RState.facAt (s : RState) (i : Nat) : FacState :=
  s.fac.getD i default

/-- Replace a factory state. -/
def RState.setFac (s : RState) (i : Nat) (f : FacState) : RState :=
  { s with fac := s.fac.set i f }

/-- Ghost bookkeeping for one execution of `factory.funcValue.Call`:
advance the invocation counter of factory `i`. -/
def bumpCalls (s : RState) (i : Nat) : RState :=
  s.setFac i { s.facAt i with calls := (s.facAt i).calls + 1 }

/-- The commit step of a successful spawn: `setSpawned(true)`,
`setOutValues(outValues)` and the `sequence` append, in that order. -/
def spawnCommit (s : RState) (i : Nat) (outs : List Value) : RState :=
  let s3 := s.setFac i
    { s.facAt i with spawned := true, outValues := some outs }
  { s3 with sequence := s3.sequence ++ [i] }

/-- Errors produced by the spawn/resolve engine, mirroring the wrapped
`fmt.Errorf` chains of `registry.go`:
`ErrStackLimitReached`, `ErrServiceNotResolved`,
`ErrFactoryReturnedError` (which wraps the factory's own error),
the "failed to resolve service: %w" wrap in `spawnFactory`,
the "failed to spawn factory: %w" wrap in `resolveByType`,
and the "failed to spawn services of NAME from SOURCE: %w" wrap in
`spawnFactories`.  `indexPanic` models the Go runtime's out-of-range
panic in `resolveByType`. -/
inductive SpawnErr where
  | stackLimit
  | serviceNotResolved (t : Ty)
  | factoryReturned (orig : String)
  | failedResolve (e : SpawnErr)
  | failedSpawnFactory (fidx : Nat) (e : SpawnErr)
  | failedSpawnNamed (name source : String) (e : SpawnErr)
  | indexPanic


/-- `errors.Is(e, ErrFactoryReturnedError)` together with recovering the
wrapped original error message: scans the wrap chain. -/
def SpawnErr.isFactoryReturnedWith : SpawnErr → String → Bool
  | .factoryReturned o, msg => o == msg
  | .failedResolve e, msg => e.isFactoryReturnedWith msg
  | .failedSpawnFactory _ e, msg => e.isFactoryReturnedWith msg
  | .failedSpawnNamed _ _ e, msg => e.isFactoryReturnedWith msg
  | _, _ => false

/-- The matching loop of `findFactoriesFor`: indexes of the out types of
one factory matching the requested type — exact equality, or
`resultType.Implements(serviceType)` when the requested type is a
non-empty interface. -/
def matchingOutIndexes (ts : TySys) (t : Ty) (outTypes : List Ty) : List Nat :=
  (outTypes.enum.filter fun p =>
    p.2 == t || (ts.isNonEmptyInterface t && ts.implements p.2 t)).map Prod.fst

/-- Inner recursion of `findFactoriesFor` over the registered factories
(`ridx` tracks the registry index).  As in the Go code, a factory is
appended to `records` once per matching output index, while `indices`
receives one entry (the whole index list) per factory with at least one
match. -/
def findFactoriesForGo (ts : TySys) (t : Ty) : Nat → List GoFactory →
    List Nat × List (List Nat)
  | _, [] => ([], [])
  | ridx, record :: rest =>
    let idxs := matchingOutIndexes ts t record.outTypes
    let (recs, inds) := findFactoriesForGo ts t (ridx + 1) rest
    (idxs.map (fun _ => ridx) ++ recs,
     if idxs.isEmpty then inds else idxs :: inds)

/-- `registry.findFactoriesFor`: all factories (by index) producing the
requested type, with the matching output indexes per factory. -/
def findFactoriesFor (ts : TySys) (fs : List GoFactory) (t : Ty) :
    List Nat × List (List Nat) :=
  findFactoriesForGo ts t 0 fs

/-- Requests of the mutually recursive resolution engine; one
constructor per Go function (`spawnFactory`, `resolveService`,
`resolveOptional`, `resolveMultiple`, `resolveRegular`,
`resolveByType`, plus the two `for` loops of `spawnFactory` and
`resolveByType` made explicit). -/
inductive Req where
  | spawn (i : Nat)
  | inputs (fidx : Nat) (tys : List Ty)
  | resolve (t : Ty)
  | resolveOpt (optT innerT : Ty)
  | resolveMul (mulT innerT : Ty)
  | resolveReg (t : Ty)
  | byType (t : Ty)
  | byTypeLoop (recs : List Nat) (indices : List (List Nat)) (pos : Nat)

/-- Collect `outValues[outIndex]` for each matched output index;
`none` models the Go out-of-range panic. -/
def collectAt (vals : List Value) : List Nat → Option (List Value)
  | [] => some []
  | i :: rest =>
    match vals.get? i, collectAt vals rest with
    | some v, some more => some (v :: more)
    | _, _ => none

/-- The resolution/spawn engine of `registry.go`.  Answers are lists of
values: `.spawn`/`.inputs` style requests answer the collected values
(`.spawn` answers `[]`), `.resolve` answers a singleton.  `fuel`
mirrors the Go stack-depth guard: it decreases at every nested call and
its exhaustion produces `ErrStackLimitReached` (checked at the top of
`spawnFactory` in Go; since every Go call deepens the stack, every
request form consumes fuel here). -/
def engine (ts : TySys) (fs : List GoFactory) :
    Nat → Req → RState → RState × Except SpawnErr (List Value)
  | 0, _, s => (s, .error .stackLimit)
  | fuel + 1, req, s =>
    match req with
    | .spawn i =>
      -- spawnFactory: check factory already spawned.
      if (s.facAt i).spawned then (s, .ok [])
      else
        let fac := fs.getD i default
        -- get or spawn factory input values recursively.
        match engine ts fs fuel (.inputs i fac.inTypes) s with
        | (s', .error e) => (s', .error e)
        | (s', .ok inVals) =>
          -- spawn the factory using the factory input arguments.
          let (outVals, errVal) := fac.call (s'.facAt i).calls inVals
          -- handle factory output error if present.
          if fac.outError && errVal.isSome then
            (bumpCalls s' i, .error (.factoryReturned (errVal.getD "")))
          else
            -- save spawn status, out values and spawn order.
            (spawnCommit (bumpCalls s' i) i outVals, .ok [])
    | .inputs fidx tys =>
      -- the input-resolution loop of spawnFactory.
      match tys with
      | [] => (s, .ok [])
      | t :: rest =>
        if ts.isContext t then
          -- handle context.Context as a special case.
          match engine ts fs fuel (.inputs fidx rest) s with
          | (s', .ok vs) => (s', .ok (.ctxOf fidx :: vs))
          | other => other
        else
          match engine ts fs fuel (.resolve t) s with
          | (s', .error e) => (s', .error (.failedResolve e))
          | (s', .ok v) =>
            match engine ts fs fuel (.inputs fidx rest) s' with
            | (s'', .ok vs) => (s'', .ok (v ++ vs))
            | other => other
    | .resolve t =>
      -- resolveService: dispatch on the classified type.
      match ts.optionalInner t with
      | some inner => engine ts fs fuel (.resolveOpt t inner) s
      | none =>
        match ts.multipleInner t with
        | some inner => engine ts fs fuel (.resolveMul t inner) s
        | none => engine ts fs fuel (.resolveReg t) s
    | .resolveOpt optT innerT =>
      -- resolveOptional.
      match engine ts fs fuel (.byType innerT) s with
      | (s', .error e) => (s', .error e)
      | (s', .ok vals) =>
        match vals with
        | [] => (s', .ok [.optBox optT (.zero innerT)])
        | v :: _ => (s', .ok [.optBox optT v])
    | .resolveMul mulT _innerT =>
      -- resolveMultiple (innerT is resolved by the byType dispatcher).
      match engine ts fs fuel (.byType _innerT) s with
      | (s', .error e) => (s', .error e)
      | (s', .ok vals) => (s', .ok [.multiBox mulT vals])
    | .resolveReg t =>
      -- resolveRegular: error when nothing matched, else first value.
      match engine ts fs fuel (.byType t) s with
      | (s', .error e) => (s', .error e)
      | (s', .ok vals) =>
        match vals with
        | [] => (s', .error (.serviceNotResolved t))
        | v :: _ => (s', .ok [v])
    | .byType t =>
      -- resolveByType: find the factories, then the spawn loop.
      let (recs, indices) := findFactoriesFor ts fs t
      engine ts fs fuel (.byTypeLoop recs indices 0) s
    | .byTypeLoop recs indices pos =>
      match recs with
      | [] => (s, .ok [])
      | fidx :: rest =>
        match engine ts fs fuel (.spawn fidx) s with
        | (s', .error e) => (s', .error (.failedSpawnFactory fidx e))
        | (s', .ok _) =>
          let outVals := (s'.facAt fidx).outValues.getD []
          match indices.get? pos with
          | none => (s', .error .indexPanic)
          | some outIdxs =>
            match collectAt outVals outIdxs with
            | none => (s', .error .indexPanic)
            | some vals =>
              match engine ts fs fuel (.byTypeLoop rest indices (pos + 1)) s' with
              | (s'', .ok more) => (s'', .ok (vals ++ more))
              | other => other

/-- `registry.spawnFactory` (the public face of the engine). -/
def spawnFactory (ts : TySys) (fs : List GoFactory) (fuel : Nat) (i : Nat)
    (s : RState) : RState × Except SpawnErr (List Value) :=
  engine ts fs fuel (.spawn i) s

/-- `registry.resolveService`. -/
def resolveService (ts : TySys) (fs : List GoFactory) (fuel : Nat) (t : Ty)
    (s : RState) : RState × Except SpawnErr (List Value) :=
  engine ts fs fuel (.resolve t) s

/-- The loop of `registry.spawnFactories`: spawn the pending factories
in registration order, returning at the first error wrapped with the
failing factory's name and source (each loop iteration starts with the
full stack budget, as in Go where the loop itself does not recurse). -/
def spawnFactoriesGo (ts : TySys) (fs : List GoFactory) (fuel : Nat) :
    List Nat → RState → RState × Option SpawnErr
  | [], s => (s, none)
  | i :: rest, s =>
    match engine ts fs fuel (.spawn i) s with
    | (s', .error e) =>
      let fac := fs.getD i default
      (s', some (.failedSpawnNamed fac.name fac.source e))
    | (s', .ok _) => spawnFactoriesGo ts fs fuel rest s'

/-- `registry.spawnFactories`. -/
def spawnFactories (ts : TySys) (fs : List GoFactory) (fuel : Nat)
    (s : RState) : RState × Option SpawnErr :=
  spawnFactoriesGo ts fs fuel (List.range fs.length) s

/-! ## `registry.validateFactories` -/

/-- Validation findings, mirroring the three wrapped sentinel errors of
`validateFactories`: `ErrServiceNotResolved` (with offending argument
type and index), `ErrServiceDuplicated` (with offending output type and
index) and `ErrCircularDependency`; each finding also names the factory
(by registry index here; the Go message adds its name and source). -/
inductive VErr where
  | notResolved (argT : Ty) (argIdx : Nat) (fidx : Nat)
  | duplicated (outT : Ty) (outIdx : Nat) (fidx : Nat)
  | circular (fidx : Nat)
deriving DecidableEq

/-- First validation pass, inner loop: findings for the input types of
one factory (context, Optional and Multiple inputs are skipped; other
inputs need at least one producing factory). -/
def validateInputsOf (ts : TySys) (fs : List GoFactory) (fidx : Nat)
    (fac : GoFactory) : List VErr :=
  fac.inTypes.enum.filterMap fun p =>
    if ts.isContext p.2 then none
    else if (ts.optionalInner p.2).isSome then none
    else if (ts.multipleInner p.2).isSome then none
    else if (findFactoriesFor ts fs p.2).1.isEmpty then
      some (.notResolved p.2 p.1 fidx)
    else none

/-- First validation pass: all input types are resolvable. -/
def validateResolvable (ts : TySys) (fs : List GoFactory) : List VErr :=
  (fs.enum.map fun p => validateInputsOf ts fs p.1 p.2).flatten

/-- Second validation pass, inner loop: findings for the output types of
one factory (`any` outputs may be duplicated; others must have at most
one producing factory in the whole registry). -/
def validateOutputsOf (ts : TySys) (fs : List GoFactory) (fidx : Nat)
    (fac : GoFactory) : List VErr :=
  fac.outTypes.enum.filterMap fun p =>
    if ts.isEmptyInterface p.2 then none
    else if 1 < (findFactoriesFor ts fs p.2).1.length then
      some (.duplicated p.2 p.1 fidx)
    else none

/-- Second validation pass: all output types are unique. -/
def validateUnique (ts : TySys) (fs : List GoFactory) : List VErr :=
  (fs.enum.map fun p => validateOutputsOf ts fs p.1 p.2).flatten

/-- One popped factory of the circular-dependency traversal: scan its
input types in order (skipping context, unwrapping Optional and then
Multiple); `none` signals that some input type is produced by the
traversal's root factory (the `break recursion` case), otherwise the
factories to append to the frontier, in encounter order. -/
def acycScanInputs (ts : TySys) (fs : List GoFactory) (root : Nat) :
    List Ty → Option (List Nat)
  | [] => some []
  | inT :: rest =>
    if ts.isContext inT then acycScanInputs ts fs root rest
    else
      let inT1 := (ts.optionalInner inT).getD inT
      let inT2 := (ts.multipleInner inT1).getD inT1
      let tfs := (findFactoriesFor ts fs inT2).1
      if tfs.contains root then none
      else (acycScanInputs ts fs root rest).map (fun g => tfs ++ g)

/-- The worklist loop of the circular-dependency pass for one root
factory.  The Go loop `for len(factories) > 0` pops the front of the
frontier, scans its inputs, and appends the discovered producers to the
back; it stops only when the root is re-reached (`some true`) or the
frontier empties (`some false`).  The Go code has no termination
guarantee, so the embedding is fuel-indexed: `none` means the loop was
still running when the fuel ran out. -/
def acycTraverse (ts : TySys) (fs : List GoFactory) (root : Nat) :
    Nat → List Nat → Option Bool
  | 0, _ => none
  | _ + 1, [] => some false
  | fuel + 1, fidx :: rest =>
    match acycScanInputs ts fs root (fs.getD fidx default).inTypes with
    | none => some true
    | some gathered => acycTraverse ts fs root fuel (rest ++ gathered)

/-- Third validation pass: one traversal per root factory, one
`CircularDependency` finding per root whose traversal re-reaches it.
`none` when some traversal diverges (fuel exhausted). -/
def validateAcyclicGo (ts : TySys) (fs : List GoFactory) (fuel : Nat) :
    List Nat → Option (List VErr)
  | [] => some []
  | root :: rest =>
    match acycTraverse ts fs root fuel [root] with
    | none => none
    | some found =>
      (validateAcyclicGo ts fs fuel rest).map fun more =>
        (if found then [VErr.circular root] else []) ++ more

/-- Third validation pass over all roots. -/
def validateAcyclic (ts : TySys) (fs : List GoFactory) (fuel : Nat) :
    Option (List VErr) :=
  validateAcyclicGo ts fs fuel (List.range fs.length)

/-- `registry.validateFactories`: the three passes run in order over
every factory, all findings collected into one `errs` slice and joined
at the end (`errors.Join` of the empty slice is the nil error, modelled
by the empty list).  `none` when the third pass diverges — the Go
function never returns in that case. -/
def validateFactories (ts : TySys) (fs : List GoFactory) (fuel : Nat) :
    Option (List VErr) :=
  (validateAcyclic ts fs fuel).map fun acyc =>
    validateResolvable ts fs ++ validateUnique ts fs ++ acyc

/-! ## `registry.closeFactories` -/

/-- The duck-typed close behaviour of service values: whether the value
implements `interface { Close() error }`, what that `Close` returns
(`none` = nil), and whether it implements the bare `interface
{ Close() }`. -/
structure CloseWorld where
  hasCloseErr : Value → Bool
  closeErrResult : Value → Option String
  hasClose : Value → Bool

/-- The observable side effects of `closeFactories`, in order: context
cancellations and invocations of the two close forms on an output value
(identified by factory index and output index). -/
inductive CloseAction where
  | cancelCtx (fidx : Nat)
  | closeErr (fidx : Nat) (outIdx : Nat)
  | closeBare (fidx : Nat) (outIdx : Nat)
deriving DecidableEq

/-- One collected close error: which factory/output failed and the
message returned by its `Close() error`. -/
structure CloseErrRec where
  fidx : Nat
  outIdx : Nat
  msg : String
deriving DecidableEq

/-- The inner loop of `closeFactories` over one factory's output
values: the `Close() error` form is checked first (its error collected),
then — independently — the bare `Close()` form. -/
def closeOutputs (w : CloseWorld) (fidx : Nat) :
    Nat → List Value → List CloseAction × List CloseErrRec
  | _, [] => ([], [])
  | outIdx, v :: rest =>
    let acts1 := if w.hasCloseErr v then [CloseAction.closeErr fidx outIdx] else []
    let errs1 :=
      if w.hasCloseErr v then
        match w.closeErrResult v with
        | some m => [CloseErrRec.mk fidx outIdx m]
        | none => []
      else []
    let acts2 := if w.hasClose v then [CloseAction.closeBare fidx outIdx] else []
    let (ra, re) := closeOutputs w fidx (outIdx + 1) rest
    (acts1 ++ acts2 ++ ra, errs1 ++ re)

/-- One step of `closeFactories` for the factory at `fidx`: cancel its
lifetime context first, then handle every spawned output value. -/
def closeOne (w : CloseWorld) (s : RState) (fidx : Nat) :
    List CloseAction × List CloseErrRec :=
  let outs := (s.facAt fidx).outValues.getD []
  let (acts, errs) := closeOutputs w fidx 0 outs
  (CloseAction.cancelCtx fidx :: acts, errs)

/-- The countdown loop of `closeFactories`: `for index := len - 1;
index >= 0; index--` over `sequence`; `closeFromIndex w s n` handles
positions `n - 1, n - 2, …, 0` in that order. -/
def closeFromIndex (w : CloseWorld) (s : RState) :
    Nat → List CloseAction × List CloseErrRec
  | 0 => ([], [])
  | n + 1 =>
    let fidx := s.sequence.getD n 0
    let (acts, errs) := closeOne w s fidx
    let (ra, re) := closeFromIndex w s n
    (acts ++ ra, errs ++ re)

/-- `registry.closeFactories`: walk `sequence` backwards, cancelling and
closing; all collected errors are joined (the empty list models the nil
`errors.Join`). -/
def closeFactories (w : CloseWorld) (s : RState) :
    List CloseAction × List CloseErrRec :=
  closeFromIndex w s s.sequence.length

/-! ## `container.Close` (container.go) -/

/-- The container state relevant to `Close`: whether the `sync.Once` has
fired, whether the application context has been cancelled (which is what
closes the `Done()` channel), the registry state, and a ghost log of all
teardown actions performed so far. -/
structure CState where
  closerDone : Bool
  ctxCancelled : Bool
  rstate : RState
  closeLog : List CloseAction

/-- `container.Close`, sequential model.  The first call runs
`closeFactories` inside `closer.Do`, stores the aggregate error into the
named return `err` and cancels the application context; any later call
skips the `Do` body — so the named return keeps its zero value `nil` —
and merely awaits `<-c.ctx.Done()`, which the first call has already
closed.  The returned `Option (List CloseErrRec)` is the call's error
(`none` = nil; a non-empty list = the joined close errors). -/
def containerClose (w : CloseWorld) (c : CState) :
    CState × Option (List CloseErrRec) :=
  if c.closerDone then
    -- closer.Do skips the body; err stays nil; <-ctx.Done() is
    -- already unblocked.
    (c, none)
  else
    let (acts, errs) := closeFactories w c.rstate
    let c' : CState :=
      { closerDone := true, ctxCancelled := true, rstate := c.rstate,
        closeLog := c.closeLog ++ acts }
    (c', if errs.isEmpty then none else some errs)

/-! ## The events broker (`events.go`) -/

/-- The reflective environment of the events broker: which handler
parameter kinds can accept a nil (`isNillableType`) and Go's
`Type.AssignableTo`. -/
structure ETySys where
  nillable : Ty → Bool
  assignable : Ty → Ty → Bool

/-- One event argument as `Trigger` sees it: the untyped nil (an invalid
`reflect.Value`) or a typed value. -/
inductive EArg where
  | nilArg
  | val (t : Ty) (tag : Nat)
deriving DecidableEq

/-- A value as passed to a handler: a converted zero value or an event
argument passed through unchanged. -/
inductive HVal where
  | zero (t : Ty)
  | val (t : Ty) (tag : Nat)
deriving DecidableEq

/-- `HandlerArgTypeMismatchError` as reported by `callTypedHandler`:
an untyped nil hit a non-nillable parameter, or the argument type is not
assignable to the parameter type (with the offending index). -/
inductive EMismatch where
  | nilNotAssignable (paramT : Ty) (idx : Nat)
  | notAssignable (paramT : Ty) (argT : Ty) (idx : Nat)
deriving DecidableEq

/-- A subscribed typed handler: its declared parameter types and the
behaviour of invoking it (`run` returns the handler's own error, `none`
for nil — `getCallOutError`). -/
structure EHandler where
  inTypes : List Ty
  run : List HVal → Option String

/-- The argument-filling loop of `callTypedHandler`: walk parameter
types and event arguments in lockstep up to
`min len(args) NumIn` — surplus event arguments are simply not
consumed, and the loop ends when either list ends.  `idx` is the
reported argument index. -/
def convertLoop (es : ETySys) : Nat → List Ty → List EArg →
    Except EMismatch (List HVal)
  | _, _, [] => .ok []
  | _, [], _ => .ok []
  | idx, t :: tys, a :: args =>
    match a with
    | .nilArg =>
      -- convert untyped nil to a typed zero when the kind is nillable.
      if es.nillable t then
        (convertLoop es (idx + 1) tys args).map (HVal.zero t :: ·)
      else .error (.nilNotAssignable t idx)
    | .val at_ tag =>
      if es.assignable at_ t then
        (convertLoop es (idx + 1) tys args).map (HVal.val at_ tag :: ·)
      else .error (.notAssignable t at_ idx)

/-- `events.callTypedHandler`: fill the handler arguments from the event
arguments, pad missing trailing arguments with zero values, and invoke
the handler; returns the mismatch error or the handler's own result
error. -/
def callTypedHandler (es : ETySys) (h : EHandler) (args : List EArg) :
    Except EMismatch (Option String) :=
  match convertLoop es 0 h.inTypes args with
  | .error e => .error e
  | .ok vals =>
    .ok (h.run (vals ++ (h.inTypes.drop vals.length).map HVal.zero))

/-- The error contributed by one handler during `Trigger` (mismatch or
the handler's own error), as collected into the `errs` slice. -/
inductive TriggerErr where
  | mismatch (m : EMismatch)
  | fromHandler (msg : String)
deriving DecidableEq

/-- One handler's contribution to `Trigger`'s error slice. -/
def handlerTriggerErr (es : ETySys) (h : EHandler) (args : List EArg) :
    Option TriggerErr :=
  match callTypedHandler es h args with
  | .error m => some (.mismatch m)
  | .ok (some msg) => some (.fromHandler msg)
  | .ok none => none

/-- `events.Trigger` over the handlers subscribed to the event's name:
every handler runs, the non-nil errors are collected in order and
joined (empty list = nil `errors.Join`). -/
def trigger (es : ETySys) (hs : List EHandler) (args : List EArg) :
    List TriggerErr :=
  hs.filterMap fun h => handlerTriggerErr es h args

/-- The handler argument of `events.Subscribe` as reflection sees it:
not a function at all, or a function with given input and output type
lists. -/
inductive HandlerFnRepr where
  | notFunc
  | fn (ins : List Ty) (outs : List Ty)
deriving DecidableEq

/-- The validation prefix of `events.Subscribe` (`implsErr t` models
`t.Implements(errorType)`): `true` iff `Subscribe` panics — the value is
not a function, or its output signature is neither empty nor a single
error-implementing type. -/
def subscribePanics (implsErr : Ty → Bool) : HandlerFnRepr → Bool
  | .notFunc => true
  | .fn _ outs =>
    match outs with
    | [] => false
    | [o] => !implsErr o
    | _ => true

/-! ## The per-factory state invariant (claim C1) -/

/-- The documented per-factory invariant: `outValues` is populated
(`setOutValues` has run) exactly when the `spawned` flag is set. -/
def Inv (s : RState) : Prop :=
  ∀ j, (s.facAt j).outValues.isSome = (s.facAt j).spawned

/-- Frame property: every factory that is already spawned in `s` has
exactly the same state (flag, stored outputs, ghost invocation count) in
`s'` — in particular its function was not invoked between `s` and
`s'`. -/
def SpawnedFrozen (s s' : RState) : Prop :=
  ∀ j, (s.facAt j).spawned = true → s'.facAt j = s.facAt j

theorem SpawnedFrozen.refl (s : RState) : SpawnedFrozen s s := fun _ _ => rfl

theorem SpawnedFrozen.trans {s₁ s₂ s₃ : RState}
    (h₁ : SpawnedFrozen s₁ s₂) (h₂ : SpawnedFrozen s₂ s₃) :
    SpawnedFrozen s₁ s₃ := by
  intro j hj
  have e₁ := h₁ j hj
  have e₂ := h₂ j (by rw [e₁]; exact hj)
  rw [e₂, e₁]

theorem facAt_setFac_ne (s : RState) (i j : Nat) (f : FacState) (h : i ≠ j) :
    (s.setFac i f).facAt j = s.facAt j := by
  simp only [RState.facAt, RState.setFac, List.getD_eq_getD_get?,
    List.get?_eq_getElem?]
  rw [List.getElem?_set_ne h]

theorem facAt_setFac_self (s : RState) (i : Nat) (f : FacState)
    (h : i < s.fac.length) : (s.setFac i f).facAt i = f := by
  simp only [RState.facAt, RState.setFac, List.getD_eq_getD_get?,
    List.get?_eq_getElem?]
  rw [List.getElem?_set_self h]
  rfl

theorem facAt_setFac_oor (s : RState) (i : Nat) (f : FacState)
    (h : ¬ i < s.fac.length) : (s.setFac i f).facAt i = s.facAt i := by
  simp only [RState.facAt, RState.setFac, List.getD_eq_getD_get?,
    List.get?_eq_getElem?]
  have hlen : s.fac.length ≤ i := Nat.le_of_not_lt h
  rw [List.getElem?_eq_none (by simpa using hlen),
    List.getElem?_eq_none (by simpa using hlen)]

theorem facAt_sequence (s : RState) (q : List Nat) (j : Nat) :
    (RState.facAt { s with sequence := q } j) = s.facAt j := rfl

/-- `Inv` is preserved by a `setFac` whose new state keeps the
populated-iff-spawned equation. -/
theorem Inv.setFac {s : RState} (hs : Inv s) (i : Nat) (f : FacState)
    (hf : f.outValues.isSome = f.spawned) : Inv (s.setFac i f) := by
  intro j
  by_cases hij : i = j
  · subst hij
    by_cases hlt : i < s.fac.length
    · rw [facAt_setFac_self s i f hlt]; exact hf
    · rw [facAt_setFac_oor s i f hlt]; exact hs i
  · rw [facAt_setFac_ne s i j f hij]; exact hs j

theorem facAt_bumpCalls_ne (s : RState) (i j : Nat) (h : i ≠ j) :
    (bumpCalls s i).facAt j = s.facAt j :=
  facAt_setFac_ne s i j _ h

theorem facAt_bumpCalls_self (s : RState) (i : Nat) (hi : i < s.fac.length) :
    (bumpCalls s i).facAt i = { s.facAt i with calls := (s.facAt i).calls + 1 } :=
  facAt_setFac_self s i _ hi

theorem length_bumpCalls (s : RState) (i : Nat) :
    (bumpCalls s i).fac.length = s.fac.length := by
  simp only [bumpCalls, RState.setFac, List.length_set]

theorem sequence_bumpCalls (s : RState) (i : Nat) :
    (bumpCalls s i).sequence = s.sequence := rfl

theorem facAt_spawnCommit_ne (s : RState) (i j : Nat) (outs : List Value)
    (h : i ≠ j) : (spawnCommit s i outs).facAt j = s.facAt j := by
  show RState.facAt _ j = _
  rw [facAt_sequence]
  exact facAt_setFac_ne s i j _ h

theorem facAt_spawnCommit_self (s : RState) (i : Nat) (outs : List Value)
    (hi : i < s.fac.length) : (spawnCommit s i outs).facAt i
      = { s.facAt i with spawned := true, outValues := some outs } := by
  show RState.facAt _ i = _
  rw [facAt_sequence]
  exact facAt_setFac_self s i _ hi

theorem sequence_spawnCommit (s : RState) (i : Nat) (outs : List Value) :
    (spawnCommit s i outs).sequence = s.sequence ++ [i] := rfl

theorem Inv.bumpCalls {s : RState} (hs : Inv s) (i : Nat) :
    Inv (bumpCalls s i) :=
  hs.setFac i _ (hs i)

theorem Inv.spawnCommit {s : RState} (hs : Inv s) (i : Nat)
    (outs : List Value) : Inv (spawnCommit s i outs) := by
  intro j
  show (RState.facAt _ j).outValues.isSome = (RState.facAt _ j).spawned
  rw [facAt_sequence]
  exact hs.setFac i _ rfl j

/-- Master preservation lemma: every engine request preserves the
populated-iff-spawned invariant, and never touches (in particular never
re-invokes) a factory that was already spawned when the request
started. -/
theorem engine_inv_frozen (ts : TySys) (fs : List GoFactory) :
    ∀ fuel req s,
      (Inv s → Inv (engine ts fs fuel req s).1) ∧
      SpawnedFrozen s (engine ts fs fuel req s).1 := by
  intro fuel
  induction fuel with
  | zero =>
    intro req s
    exact ⟨fun h => h, SpawnedFrozen.refl s⟩
  | succ fuel ih =>
    intro req s
    cases req with
    | spawn i =>
      cases hsp : (s.facAt i).spawned with
      | true =>
        simp only [engine, hsp, if_true]
        exact ⟨fun h => h, SpawnedFrozen.refl s⟩
      | false =>
        rcases hE : engine ts fs fuel (.inputs i (fs.getD i default).inTypes) s
          with ⟨s', r⟩
        have ihIn := ih (.inputs i (fs.getD i default).inTypes) s
        rw [hE] at ihIn
        cases r with
        | error e =>
          simp only [engine, hsp, hE, Bool.false_eq_true, if_false]
          exact ihIn
        | ok inVals =>
          rcases hc : (fs.getD i default).call (s'.facAt i).calls inVals
            with ⟨outVals, errVal⟩
          -- every write below touches only factory i, which is not
          -- spawned at s, so the frame over s is easy to re-establish
          have hne : ∀ j, (s.facAt j).spawned = true → i ≠ j := by
            intro j hj hij
            rw [hij] at hsp
            rw [hj] at hsp
            exact Bool.true_eq_false.mp hsp
          cases hOE : (fs.getD i default).outError && errVal.isSome with
          | true =>
            simp only [engine, hsp, hE, hc, hOE, Bool.false_eq_true, if_false,
              if_true]
            constructor
            · intro hInv
              exact (ihIn.1 hInv).bumpCalls i
            · intro j hj
              rw [facAt_bumpCalls_ne s' i j (hne j hj)]
              exact ihIn.2 j hj
          | false =>
            simp only [engine, hsp, hE, hc, hOE, Bool.false_eq_true, if_false]
            constructor
            · intro hInv
              exact ((ihIn.1 hInv).bumpCalls i).spawnCommit i outVals
            · intro j hj
              have hij := hne j hj
              rw [facAt_spawnCommit_ne _ i j _ hij, facAt_bumpCalls_ne s' i j hij]
              exact ihIn.2 j hj
    | inputs fidx tys =>
      cases tys with
      | nil => exact ⟨fun h => h, SpawnedFrozen.refl s⟩
      | cons t rest =>
        cases hctx : ts.isContext t with
        | true =>
          rcases hR : engine ts fs fuel (.inputs fidx rest) s with ⟨s', r⟩
          have ihR := ih (.inputs fidx rest) s
          rw [hR] at ihR
          cases r with
          | error e =>
            simp only [engine, hctx, hR, if_true]
            exact ihR
          | ok vs =>
            simp only [engine, hctx, hR, if_true]
            exact ihR
        | false =>
          rcases hR : engine ts fs fuel (.resolve t) s with ⟨s', r⟩
          have ihR := ih (.resolve t) s
          rw [hR] at ihR
          cases r with
          | error e =>
            simp only [engine, hctx, hR, Bool.false_eq_true, if_false]
            exact ihR
          | ok v =>
            rcases h2 : engine ts fs fuel (.inputs fidx rest) s' with ⟨s'', r2⟩
            have ih2 := ih (.inputs fidx rest) s'
            rw [h2] at ih2
            cases r2 with
            | error e =>
              simp only [engine, hctx, hR, h2, Bool.false_eq_true, if_false]
              exact ⟨fun h => ih2.1 (ihR.1 h), ihR.2.trans ih2.2⟩
            | ok vs =>
              simp only [engine, hctx, hR, h2, Bool.false_eq_true, if_false]
              exact ⟨fun h => ih2.1 (ihR.1 h), ihR.2.trans ih2.2⟩
    | resolve t =>
      rcases hOpt : ts.optionalInner t with _ | inner
      · rcases hMul : ts.multipleInner t with _ | inner
        · simp only [engine, hOpt, hMul]
          exact ih (.resolveReg t) s
        · simp only [engine, hOpt, hMul]
          exact ih (.resolveMul t inner) s
      · simp only [engine, hOpt]
        exact ih (.resolveOpt t inner) s
    | resolveOpt optT innerT =>
      rcases hB : engine ts fs fuel (.byType innerT) s with ⟨s', r⟩
      have ihB := ih (.byType innerT) s
      rw [hB] at ihB
      cases r with
      | error e => simp only [engine, hB]; exact ihB
      | ok vals =>
        cases vals with
        | nil => simp only [engine, hB]; exact ihB
        | cons v vs => simp only [engine, hB]; exact ihB
    | resolveMul mulT innerT =>
      rcases hB : engine ts fs fuel (.byType innerT) s with ⟨s', r⟩
      have ihB := ih (.byType innerT) s
      rw [hB] at ihB
      cases r with
      | error e => simp only [engine, hB]; exact ihB
      | ok vals => simp only [engine, hB]; exact ihB
    | resolveReg t =>
      rcases hB : engine ts fs fuel (.byType t) s with ⟨s', r⟩
      have ihB := ih (.byType t) s
      rw [hB] at ihB
      cases r with
      | error e => simp only [engine, hB]; exact ihB
      | ok vals =>
        cases vals with
        | nil => simp only [engine, hB]; exact ihB
        | cons v vs => simp only [engine, hB]; exact ihB
    | byType t =>
      rcases hF : findFactoriesFor ts fs t with ⟨recs, indices⟩
      simp only [engine, hF]
      exact ih (.byTypeLoop recs indices 0) s
    | byTypeLoop recs indices pos =>
      cases recs with
      | nil => exact ⟨fun h => h, SpawnedFrozen.refl s⟩
      | cons fidx rest =>
        rcases hS : engine ts fs fuel (.spawn fidx) s with ⟨s', r⟩
        have ihS := ih (.spawn fidx) s
        rw [hS] at ihS
        cases r with
        | error e => simp only [engine, hS]; exact ihS
        | ok vs =>
          rcases hI : indices.get? pos with _ | outIdxs
          · simp only [engine, hS, hI]; exact ihS
          · rcases hC : collectAt ((s'.facAt fidx).outValues.getD []) outIdxs
              with _ | vals
            · simp only [engine, hS, hI, hC]; exact ihS
            · rcases h2 : engine ts fs fuel (.byTypeLoop rest indices (pos + 1)) s'
                with ⟨s'', r2⟩
              have ih2 := ih (.byTypeLoop rest indices (pos + 1)) s'
              rw [h2] at ih2
              cases r2 with
              | error e =>
                simp only [engine, hS, hI, hC, h2]
                exact ⟨fun h => ih2.1 (ihS.1 h), ihS.2.trans ih2.2⟩
              | ok more =>
                simp only [engine, hS, hI, hC, h2]
                exact ⟨fun h => ih2.1 (ihS.1 h), ihS.2.trans ih2.2⟩

/-- A state whose factory entries all satisfy the populated-iff-spawned
equation satisfies `Inv` (out-of-range reads give the default entry,
which satisfies it trivially). -/
theorem Inv_of_forall_mem {s : RState}
    (h : ∀ f ∈ s.fac, f.outValues.isSome = f.spawned) : Inv s := by
  intro j
  by_cases hj : j < s.fac.length
  · have : s.facAt j = s.fac[j] := List.getD_eq_getElem s.fac default hj
    rw [this]
    exact h _ (s.fac.getElem_mem hj)
  · have : s.facAt j = default := List.getD_eq_default s.fac default (Nat.le_of_not_lt hj)
    rw [this]
    rfl

/-- The initial registry state satisfies the invariant. -/
theorem Inv_initState (n : Nat) : Inv (initState n) := by
  apply Inv_of_forall_mem
  intro f hf
  have := List.eq_of_mem_replicate hf
  rw [this]
  rfl

/-- C1: for every factory in one container, `outValues` is populated iff
its `spawned` flag is true (the invariant holds initially and is
preserved by `spawnFactory` and `resolveService`), and once a factory is
spawned its underlying function is never invoked again: its whole
per-factory state — including the ghost invocation counter — is frozen,
a subsequent `spawnFactory` returns immediately (`nil`, no state
change), and resolving a type it produces replays the already-stored
outputs with no state change. -/
theorem spawnFactory_memoized_invariant (ts : TySys) (fs : List GoFactory)
    (fuel : Nat) (i : Nat) (s : RState) (hInv : Inv s) :
    (∀ n, Inv (initState n))
    ∧ Inv (spawnFactory ts fs fuel i s).1
    ∧ (∀ j, (s.facAt j).spawned = true →
        (spawnFactory ts fs fuel i s).1.facAt j = s.facAt j)
    ∧ (∀ t, Inv (resolveService ts fs fuel t s).1
        ∧ ∀ j, (s.facAt j).spawned = true →
            (resolveService ts fs fuel t s).1.facAt j = s.facAt j)
    ∧ ((s.facAt i).spawned = true → 0 < fuel →
        spawnFactory ts fs fuel i s = (s, .ok []))
    ∧ (∀ k t idxs v vs,
        ts.optionalInner t = none → ts.multipleInner t = none →
        findFactoriesFor ts fs t = ([i], [idxs]) →
        (s.facAt i).spawned = true →
        collectAt ((s.facAt i).outValues.getD []) idxs = some (v :: vs) →
        resolveService ts fs (k + 5) t s = (s, .ok [v])) := by
  refine ⟨Inv_initState, ?_, ?_, ?_, ?_, ?_⟩
  · exact (engine_inv_frozen ts fs fuel (.spawn i) s).1 hInv
  · exact (engine_inv_frozen ts fs fuel (.spawn i) s).2
  · intro t
    exact ⟨(engine_inv_frozen ts fs fuel (.resolve t) s).1 hInv,
      (engine_inv_frozen ts fs fuel (.resolve t) s).2⟩
  · intro hsp hfuel
    cases fuel with
    | zero => exact absurd hfuel (Nat.lt_irrefl 0)
    | succ fuel => simp only [spawnFactory, engine, hsp, if_true]
  · intro k t idxs v vs hOpt hMul hFind hsp hColl
    show engine ts fs (k + 5) (.resolve t) s = (s, .ok [v])
    simp only [engine, hOpt, hMul, hFind, hsp, hColl, if_true,
      List.get?, collectAt, List.append_nil]

/-! ## Concrete scenarios used by the witnesses and counterexamples -/

/-- A plain type system: no context inputs, no Optional/Multiple
wrappers, no interfaces. -/
def tsPlain : TySys :=
  { isContext := fun _ => false, optionalInner := fun _ => none,
    multipleInner := fun _ => none, isNonEmptyInterface := fun _ => false,
    isEmptyInterface := fun _ => false, implements := fun _ _ => false }

/-- A two-factory pipeline: factory 0 produces type 10, factory 1
consumes type 10 and produces type 11. -/
def fsPipeline : List GoFactory :=
  [ { name := "F0", source := "s0", inTypes := [], outTypes := [10],
      outError := false, call := fun _ _ => ([.base 10 0], none) },
    { name := "F1", source := "s1", inTypes := [10], outTypes := [11],
      outError := false, call := fun _ ins => ([.base 11 ins.length], none) } ]

/-- The registry state after eagerly starting the pipeline. -/
def sActive : RState := (spawnFactories tsPlain fsPipeline 50 (initState 2)).1

/-- Witness for C1: in the started pipeline both factories are spawned;
re-spawning factory 0 is a no-op and resolving its output type replays
the stored value without touching any state. -/
theorem spawnFactory_memoized_invariant_witness :
    Inv (spawnFactory tsPlain fsPipeline 30 0 sActive).1
    ∧ spawnFactory tsPlain fsPipeline 30 0 sActive = (sActive, .ok [])
    ∧ resolveService tsPlain fsPipeline 25 10 sActive
        = (sActive, .ok [.base 10 0]) := by
  have hInv : Inv sActive := Inv_of_forall_mem (by decide)
  have h := spawnFactory_memoized_invariant tsPlain fsPipeline 30 0 sActive hInv
  exact ⟨h.2.1, h.2.2.2.2.1 rfl (by decide),
    h.2.2.2.2.2 20 10 [0] (.base 10 0) [] rfl rfl rfl rfl rfl⟩

/-- Helper: the success path of `spawnFactory` for a factory without
inputs — it records the outputs, sets the flag, bumps the ghost counter
and appends itself to `sequence`. -/
theorem spawnFactory_success_noinputs (ts : TySys) (fs : List GoFactory)
    (fuel i : Nat) (s : RState) (outs : List Value) (errv : Option String)
    (hi : i < s.fac.length)
    (hsp : (s.facAt i).spawned = false)
    (hIn : (fs.getD i default).inTypes = [])
    (hCall : (fs.getD i default).call (s.facAt i).calls [] = (outs, errv))
    (hOE : ((fs.getD i default).outError && errv.isSome) = false) :
    spawnFactory ts fs (fuel + 2) i s
      = (spawnCommit (bumpCalls s i) i outs, .ok [])
    ∧ (spawnCommit (bumpCalls s i) i outs).facAt i
        = { spawned := true, outValues := some outs,
            calls := (s.facAt i).calls + 1 }
    ∧ (spawnCommit (bumpCalls s i) i outs).sequence = s.sequence ++ [i] := by
  refine ⟨?_, ?_, ?_⟩
  · simp only [spawnFactory, engine, hsp, hIn, hCall, hOE, Bool.false_eq_true,
      if_false]
  · rw [facAt_spawnCommit_self _ i outs (by rw [length_bumpCalls]; exact hi),
      facAt_bumpCalls_self s i hi]
  · rw [sequence_spawnCommit, sequence_bumpCalls]

/-- C3: when a factory with a trailing error output returns a non-nil
error, `spawnFactory` aborts with `ErrFactoryReturnedError` wrapping the
original error; the only state change is the ghost invocation counter —
the outputs are not recorded, the factory stays unspawned and is not
appended to `sequence` — and a second spawn re-invokes the underlying
function (the invocation counter advances again) instead of replaying
the cached failure. (Stated for a factory without inputs; the error
path after the invocation does not depend on the inputs.) -/
theorem spawnFactory_error_leaves_unspawned (ts : TySys)
    (fs : List GoFactory) (fuel i : Nat) (s : RState) (outs : List Value)
    (e : String) (hi : i < s.fac.length)
    (hsp : (s.facAt i).spawned = false)
    (hIn : (fs.getD i default).inTypes = [])
    (hOE : (fs.getD i default).outError = true)
    (hCall : (fs.getD i default).call (s.facAt i).calls [] = (outs, some e)) :
    spawnFactory ts fs (fuel + 2) i s
      = (bumpCalls s i, .error (.factoryReturned e))
    ∧ ((spawnFactory ts fs (fuel + 2) i s).1.facAt i).spawned = false
    ∧ ((spawnFactory ts fs (fuel + 2) i s).1.facAt i).outValues
        = (s.facAt i).outValues
    ∧ (spawnFactory ts fs (fuel + 2) i s).1.sequence = s.sequence
    ∧ SpawnErr.isFactoryReturnedWith (.factoryReturned e) e = true
    ∧ (∀ outs2,
        (fs.getD i default).call ((s.facAt i).calls + 1) [] = (outs2, none) →
        ((spawnFactory ts fs (fuel + 2) i
            (spawnFactory ts fs (fuel + 2) i s).1).2 = .ok []
         ∧ ((spawnFactory ts fs (fuel + 2) i
              (spawnFactory ts fs (fuel + 2) i s).1).1.facAt i).calls
              = (s.facAt i).calls + 2
         ∧ ((spawnFactory ts fs (fuel + 2) i
              (spawnFactory ts fs (fuel + 2) i s).1).1.facAt i).outValues
              = some outs2
         ∧ ((spawnFactory ts fs (fuel + 2) i
              (spawnFactory ts fs (fuel + 2) i s).1).1.facAt i).spawned
              = true))
    ∧ (∀ k t idxs outs2 v vs,
        ts.optionalInner t = none → ts.multipleInner t = none →
        findFactoriesFor ts fs t = ([i], [idxs]) →
        (fs.getD i default).call ((s.facAt i).calls + 1) [] = (outs2, none) →
        collectAt outs2 idxs = some (v :: vs) →
        resolveService ts fs (k + 6) t (spawnFactory ts fs (fuel + 2) i s).1
          = (spawnCommit (bumpCalls (bumpCalls s i) i) i outs2, .ok [v])) := by
  have hstep : spawnFactory ts fs (fuel + 2) i s
      = (bumpCalls s i, .error (.factoryReturned e)) := by
    simp only [spawnFactory, engine, hsp, hIn, hOE, hCall, Bool.false_eq_true,
      if_false, Option.isSome_some, Bool.and_self, if_true, Option.getD_some]
  have hfacAt : (bumpCalls s i).facAt i
      = { s.facAt i with calls := (s.facAt i).calls + 1 } :=
    facAt_bumpCalls_self s i hi
  have hsp1 : ((bumpCalls s i).facAt i).spawned = false := by
    rw [hfacAt]; exact hsp
  have hc1 : ((bumpCalls s i).facAt i).calls = (s.facAt i).calls + 1 := by
    rw [hfacAt]
  have hlen1 : i < (bumpCalls s i).fac.length := by
    rw [length_bumpCalls]; exact hi
  refine ⟨hstep, ?_, ?_, ?_, by simp [SpawnErr.isFactoryReturnedWith], ?_, ?_⟩
  · rw [hstep]; simp only [hfacAt]; exact hsp
  · rw [hstep]; simp only [hfacAt]
  · rw [hstep]; exact sequence_bumpCalls s i
  · intro outs2 hCall2
    rw [hstep]
    have hCall2' : (fs.getD i default).call ((bumpCalls s i).facAt i).calls []
        = (outs2, none) := by rw [hc1]; exact hCall2
    have h2 := spawnFactory_success_noinputs ts fs fuel i (bumpCalls s i)
      outs2 none hlen1 hsp1 hIn hCall2' (by simp)
    rw [h2.1]
    refine ⟨rfl, ?_, ?_, ?_⟩
    · show (RState.facAt _ i).calls = _
      rw [h2.2.1, hc1]
    · show (RState.facAt _ i).outValues = _
      rw [h2.2.1]
    · show (RState.facAt _ i).spawned = _
      rw [h2.2.1]
  · intro k t idxs outs2 v vs hOpt hMul hFind hCall2 hColl
    simp only [hstep]
    have hCall2' : (fs.getD i default).call ((bumpCalls s i).facAt i).calls []
        = (outs2, none) := by rw [hc1]; exact hCall2
    have h2 := spawnFactory_success_noinputs ts fs k i (bumpCalls s i)
      outs2 none hlen1 hsp1 hIn hCall2' (by simp)
    have hFacOut := h2.2.1
    show engine ts fs (k + 6) (.resolve t) (bumpCalls s i) = _
    simp only [engine, hOpt, hMul, hFind, hsp1, hIn, hCall2',
      Option.isSome_none, Bool.and_false, Bool.false_eq_true, if_false,
      hFacOut, Option.getD_some, List.get?, hColl, List.append_nil]

/-- A single factory with a trailing error output whose first invocation
fails with "boom" and whose second invocation succeeds, producing a
value of type 20. -/
def fsRetry : List GoFactory :=
  [ { name := "FE", source := "se", inTypes := [], outTypes := [20],
      outError := true,
      call := fun n _ =>
        if n = 0 then ([], some "boom") else ([.base 20 7], none) } ]

/-- Witness for C3: the first spawn of the retry factory fails with
`FactoryReturnedError` wrapping "boom" and leaves it unspawned with no
recorded outputs; resolving type 20 afterwards re-invokes the function
and succeeds. -/
theorem spawnFactory_error_leaves_unspawned_witness :
    spawnFactory tsPlain fsRetry 12 0 (initState 1)
      = (bumpCalls (initState 1) 0, .error (.factoryReturned "boom"))
    ∧ ((spawnFactory tsPlain fsRetry 12 0 (initState 1)).1.facAt 0).spawned
        = false
    ∧ ((spawnFactory tsPlain fsRetry 12 0 (initState 1)).1.facAt 0).outValues
        = ((initState 1).facAt 0).outValues
    ∧ (spawnFactory tsPlain fsRetry 12 0 (initState 1)).1.sequence
        = (initState 1).sequence
    ∧ SpawnErr.isFactoryReturnedWith (.factoryReturned "boom") "boom" = true
    ∧ resolveService tsPlain fsRetry 15 20
        (spawnFactory tsPlain fsRetry 12 0 (initState 1)).1
        = (spawnCommit (bumpCalls (bumpCalls (initState 1) 0) 0) 0
            [.base 20 7], .ok [.base 20 7]) := by
  have h := spawnFactory_error_leaves_unspawned tsPlain fsRetry 10 0
    (initState 1) [] "boom" (by decide) rfl rfl rfl rfl
  exact ⟨h.1, h.2.1, h.2.2.1, h.2.2.2.1, h.2.2.2.2.1,
    h.2.2.2.2.2.2 9 20 [0] [.base 20 7] (.base 20 7) [] rfl rfl rfl rfl rfl⟩

/-- A type system recognizing two optional box types: type 101 boxes
type 30, type 102 boxes type 31. -/
def tsOpt : TySys :=
  { tsPlain with optionalInner := fun t =>
      if t = 101 then some 30 else if t = 102 then some 31 else none }

/-- Two factories both producing type 30 (values tagged 5 and 6). -/
def fsTwoProducers : List GoFactory :=
  [ { name := "G0", source := "g0", inTypes := [], outTypes := [30],
      outError := false, call := fun _ _ => ([.base 30 5], none) },
    { name := "G1", source := "g1", inTypes := [], outTypes := [30],
      outError := false, call := fun _ _ => ([.base 30 6], none) } ]

/-- C4: resolving `Optional[T]` with zero registered producers of `T`
yields — with no error — a box whose accessor returns the zero value of
`T`; with one or more matching producers it yields a box wrapping the
first matching factory's value.  The one-or-more half is general: for
every type system, registry and state, whenever `resolveByType` answers
a non-empty value list, `resolveOptional` boxes its head (second
conjunct); and the head of the `resolveByType` loop's answer is the
first matched output value of the first matching factory (third
conjunct).  The final conjuncts instantiate this on the two-producer
registry, where the box wraps factory 0's value, tagged 5. -/
theorem resolveOptional_zero_value_and_first_match :
    (∀ (ts : TySys) (fs : List GoFactory) (k : Nat) (optT innerT : Ty)
       (s : RState),
       ts.optionalInner optT = some innerT →
       findFactoriesFor ts fs innerT = ([], []) →
       resolveService ts fs (k + 4) optT s
         = (s, .ok [.optBox optT (.zero innerT)])
       ∧ optGet (.optBox optT (.zero innerT)) = some (.zero innerT))
    ∧ (∀ (ts : TySys) (fs : List GoFactory) (k : Nat) (optT innerT : Ty)
       (s s' : RState) (v : Value) (vs : List Value),
       ts.optionalInner optT = some innerT →
       engine ts fs k (.byType innerT) s = (s', .ok (v :: vs)) →
       resolveService ts fs (k + 2) optT s = (s', .ok [.optBox optT v])
       ∧ optGet (.optBox optT v) = some v)
    ∧ (∀ (ts : TySys) (fs : List GoFactory) (fuel i pos : Nat)
       (rest : List Nat) (indices : List (List Nat)) (outIdxs : List Nat)
       (s s' s'' : RState) (v : Value) (vs ans : List Value),
       engine ts fs fuel (.spawn i) s = (s', .ok []) →
       indices.get? pos = some outIdxs →
       collectAt ((s'.facAt i).outValues.getD []) outIdxs = some (v :: vs) →
       engine ts fs (fuel + 1) (.byTypeLoop (i :: rest) indices pos) s
         = (s'', .ok ans) →
       ans.head? = some v)
    ∧ (resolveService tsOpt fsTwoProducers 20 101 (initState 2)).2
        = .ok [.optBox 101 (.base 30 5)]
    ∧ optGet (.optBox 101 (.base 30 5)) = some (.base 30 5) := by
  refine ⟨?_, ?_, ?_, by rfl, rfl⟩
  · intro ts fs k optT innerT s hOpt hFind
    constructor
    · show engine ts fs (k + 4) (.resolve optT) s = _
      simp only [engine, hOpt, hFind]
    · rfl
  · intro ts fs k optT innerT s s' v vs hOpt hB
    constructor
    · show engine ts fs (k + 2) (.resolve optT) s = _
      simp only [engine, hOpt, hB]
    · rfl
  · intro ts fs fuel i pos rest indices outIdxs s s' s'' v vs ans
      hSpawn hIdx hColl hRes
    simp only [engine, hSpawn, hIdx, hColl] at hRes
    rcases h2 : engine ts fs fuel (.byTypeLoop rest indices (pos + 1)) s'
      with ⟨s2, r2⟩
    rw [h2] at hRes
    cases r2 with
    | error e => cases hRes
    | ok more =>
      cases hRes
      rfl

/-- Witness for C4: the zero-match part on the optional box 102 (inner
type 31, which no factory produces), and the one-or-more parts on the
optional box 101 over the two producers of type 30 — the box wraps the
head of the `resolveByType` answer, which is the first matching
factory's value (tagged 5), ahead of the second producer's value
(tagged 6). -/
theorem resolveOptional_zero_value_witness :
    (resolveService tsOpt fsTwoProducers 14 102 (initState 2)
      = (initState 2, .ok [.optBox 102 (.zero 31)])
     ∧ optGet (.optBox 102 (.zero 31)) = some (.zero 31))
    ∧ (resolveService tsOpt fsTwoProducers 12 101 (initState 2)
        = ((engine tsOpt fsTwoProducers 10 (.byType 30) (initState 2)).1,
           .ok [.optBox 101 (.base 30 5)])
       ∧ optGet (.optBox 101 (.base 30 5)) = some (.base 30 5))
    ∧ [Value.base 30 5, Value.base 30 6].head? = some (.base 30 5) := by
  refine ⟨?_, ?_, ?_⟩
  · exact resolveOptional_zero_value_and_first_match.1 tsOpt fsTwoProducers
      10 102 31 (initState 2) rfl rfl
  · exact resolveOptional_zero_value_and_first_match.2.1 tsOpt fsTwoProducers
      10 101 30 (initState 2)
      (engine tsOpt fsTwoProducers 10 (.byType 30) (initState 2)).1
      (.base 30 5) [.base 30 6] rfl (by rfl)
  · exact resolveOptional_zero_value_and_first_match.2.2.1 tsOpt
      fsTwoProducers 8 0 0 [1] [[0], [0]] [0] (initState 2)
      (engine tsOpt fsTwoProducers 8 (.spawn 0) (initState 2)).1
      (engine tsOpt fsTwoProducers 9
        (.byTypeLoop [0, 1] [[0], [0]] 0) (initState 2)).1
      (.base 30 5) [] [.base 30 5, .base 30 6] (by rfl) rfl rfl (by rfl)

/-! ## C7: error propagation in `spawnFactories` -/

/-- Two independent factories that both fail on invocation. -/
def fsTwoFail : List GoFactory :=
  [ { name := "E0", source := "p0", inTypes := [], outTypes := [60],
      outError := true, call := fun _ _ => ([], some "e0") },
    { name := "E1", source := "p1", inTypes := [], outTypes := [61],
      outError := true, call := fun _ _ => ([], some "e1") } ]

/-- Counterexample to C7 as stated: with two independently failing
factories, `spawnFactories` returns only the first factory's wrapped
error — the error names factory "E0" alone — and the second factory is
never attempted at all (its invocation counter stays 0 and it remains
unspawned), so no error of factory "E1" exists to be joined. -/
theorem spawnFactories_shortcircuit_counterexample :
    (spawnFactories tsPlain fsTwoFail 30 (initState 2)).2
      = some (.failedSpawnNamed "E0" "p0" (.factoryReturned "e0"))
    ∧ ((spawnFactories tsPlain fsTwoFail 30 (initState 2)).1.facAt 1).calls = 0
    ∧ ((spawnFactories tsPlain fsTwoFail 30 (initState 2)).1.facAt 1).spawned
        = false :=
  ⟨rfl, rfl, rfl⟩

/-- C7 (amended): a spawn error is wrapped with the failing factory's
name and source, and the `spawnFactories` loop returns it immediately:
the factories after the failing one are not attempted, and only this
first wrapped error — not a join of all failures — is returned. -/
theorem spawnFactories_first_error_wrapped (ts : TySys)
    (fs : List GoFactory) (fuel i : Nat) (rest : List Nat) (s s' : RState)
    (e : SpawnErr)
    (h : engine ts fs fuel (.spawn i) s = (s', .error e)) :
    spawnFactoriesGo ts fs fuel (i :: rest) s
      = (s', some (.failedSpawnNamed (fs.getD i default).name
          (fs.getD i default).source e)) := by
  simp only [spawnFactoriesGo, h]

/-- Witness for the amended C7 on the double-failure registry. -/
theorem spawnFactories_first_error_wrapped_witness :
    spawnFactoriesGo tsPlain fsTwoFail 30 [0, 1] (initState 2)
      = (bumpCalls (initState 2) 0,
         some (.failedSpawnNamed "E0" "p0" (.factoryReturned "e0"))) :=
  spawnFactories_first_error_wrapped tsPlain fsTwoFail 30 0 [1] (initState 2)
    (bumpCalls (initState 2) 0) (.factoryReturned "e0") (by rfl)

/-! ## C5 and C6: `validateFactories` -/

/-- Three factories whose types form the cycle A→B→C→A: factory 0
consumes type 1 and produces type 0, and so on. -/
def fsCycle : List GoFactory :=
  [ { name := "A", source := "a", inTypes := [1], outTypes := [0],
      outError := false, call := fun _ _ => ([.base 0 0], none) },
    { name := "B", source := "b", inTypes := [2], outTypes := [1],
      outError := false, call := fun _ _ => ([.base 1 0], none) },
    { name := "C", source := "c", inTypes := [0], outTypes := [2],
      outError := false, call := fun _ _ => ([.base 2 0], none) } ]

/-- A registry with all three kinds of validation problems at once:
factory 0 needs the unproduced type 5 and produces type 3; factory 1
also produces type 3 (duplicate); factory 2 depends on its own output
type 4 (a cycle). -/
def fsMixed : List GoFactory :=
  [ { name := "M0", source := "m0", inTypes := [5], outTypes := [3],
      outError := false, call := fun _ _ => ([.base 3 0], none) },
    { name := "M1", source := "m1", inTypes := [], outTypes := [3],
      outError := false, call := fun _ _ => ([.base 3 1], none) },
    { name := "M2", source := "m2", inTypes := [4], outTypes := [4],
      outError := false, call := fun _ _ => ([.base 4 0], none) } ]

/-- C5: on the A→B→C→A cycle, `validateFactories` reports exactly one
`CircularDependency` finding per factory (one per traversal root); and
the three passes are aggregated — a registry with a missing dependency,
a duplicated output and a cycle yields all the findings joined in one
result instead of stopping at the first failure. -/
theorem validateFactories_cycle_and_aggregation :
    validateFactories tsPlain fsCycle 10
      = some [.circular 0, .circular 1, .circular 2]
    ∧ validateFactories tsPlain fsMixed 10
      = some [.notResolved 5 0 0, .duplicated 3 0 0, .duplicated 3 0 1,
              .circular 2] :=
  ⟨rfl, rfl⟩

/-- A registry whose root factory 0 (producing type 10) depends on a
group of factories 1, 2, 3 that form a cycle among themselves
(11→12→13→11) without reaching back to factory 0. -/
def fsOffCycle : List GoFactory :=
  [ { name := "R", source := "r", inTypes := [11], outTypes := [10],
      outError := false, call := fun _ _ => ([.base 10 0], none) },
    { name := "K1", source := "k1", inTypes := [12], outTypes := [11],
      outError := false, call := fun _ _ => ([.base 11 0], none) },
    { name := "K2", source := "k2", inTypes := [13], outTypes := [12],
      outError := false, call := fun _ _ => ([.base 12 0], none) },
    { name := "K3", source := "k3", inTypes := [11], outTypes := [13],
      outError := false, call := fun _ _ => ([.base 13 0], none) } ]

/-- C6: the acyclicity pass has no frontier deduplication, and the only
stop signals are reaching the root again or exhausting the frontier.
Starting from root 0 of `fsOffCycle` the frontier cycles forever through
`[1] → [2] → [3] → [1]`, so the traversal — and with it the whole
`validateFactories` call — never terminates, for any amount of fuel. -/
theorem validateFactories_offroot_cycle_diverges :
    ∀ fuel, acycTraverse tsPlain fsOffCycle 0 fuel [1] = none
      ∧ acycTraverse tsPlain fsOffCycle 0 fuel [2] = none
      ∧ acycTraverse tsPlain fsOffCycle 0 fuel [3] = none
      ∧ acycTraverse tsPlain fsOffCycle 0 fuel [0] = none
      ∧ validateFactories tsPlain fsOffCycle fuel = none := by
  have key : ∀ fuel, acycTraverse tsPlain fsOffCycle 0 fuel [1] = none
      ∧ acycTraverse tsPlain fsOffCycle 0 fuel [2] = none
      ∧ acycTraverse tsPlain fsOffCycle 0 fuel [3] = none := by
    intro fuel
    induction fuel with
    | zero => exact ⟨rfl, rfl, rfl⟩
    | succ fuel ih =>
      refine ⟨?_, ?_, ?_⟩
      · show acycTraverse tsPlain fsOffCycle 0 fuel [2] = none
        exact ih.2.1
      · show acycTraverse tsPlain fsOffCycle 0 fuel [3] = none
        exact ih.2.2
      · show acycTraverse tsPlain fsOffCycle 0 fuel [1] = none
        exact ih.1
  intro fuel
  have hroot : acycTraverse tsPlain fsOffCycle 0 fuel [0] = none := by
    cases fuel with
    | zero => rfl
    | succ fuel =>
      show acycTraverse tsPlain fsOffCycle 0 fuel [1] = none
      exact (key fuel).1
  refine ⟨(key fuel).1, (key fuel).2.1, (key fuel).2.2, hroot, ?_⟩
  show (validateAcyclic tsPlain fsOffCycle fuel).map _ = none
  have : validateAcyclic tsPlain fsOffCycle fuel = none := by
    show validateAcyclicGo tsPlain fsOffCycle fuel [0, 1, 2, 3] = none
    show (match acycTraverse tsPlain fsOffCycle 0 fuel [0] with
      | none => none
      | some found =>
        (validateAcyclicGo tsPlain fsOffCycle fuel [1, 2, 3]).map fun more =>
          (if found then [VErr.circular 0] else []) ++ more)
      = none
    rw [hroot]
  rw [this]
  rfl

/-! ## C2: reverse-order teardown -/

/-- The countdown loop equals, for its first `n` positions, the
flattened per-factory teardown blocks of `sequence.take n` in reverse
order. -/
theorem closeFromIndex_eq (w : CloseWorld) (s : RState) :
    ∀ n, n ≤ s.sequence.length →
      closeFromIndex w s n
        = ((((s.sequence.take n).reverse).map
              fun f => (closeOne w s f).1).flatten,
           (((s.sequence.take n).reverse).map
              fun f => (closeOne w s f).2).flatten) := by
  intro n
  induction n with
  | zero => intro _; rfl
  | succ n ih =>
    intro hn
    have hlt : n < s.sequence.length := Nat.lt_of_succ_le hn
    have hget : s.sequence[n]? = some (s.sequence.getD n 0) := by
      rw [List.getD_eq_getElem s.sequence 0 hlt]
      exact List.getElem?_eq_getElem hlt
    have htake : s.sequence.take (n + 1)
        = s.sequence.take n ++ [s.sequence.getD n 0] := by
      rw [List.take_succ, hget]
      rfl
    show (let fidx := s.sequence.getD n 0
          let p := closeOne w s fidx
          let r := closeFromIndex w s n
          (p.1 ++ r.1, p.2 ++ r.2)) = _
    rw [ih (Nat.le_of_lt hlt), htake]
    simp only [List.reverse_append, List.reverse_cons, List.reverse_nil,
      List.nil_append, List.cons_append, List.map_cons, List.flatten_cons]

/-- C2: `closeFactories` tears the recorded spawn `sequence` down in
strict reverse order — factories spawned A, B, C are handled C, B, A —
where each factory's block cancels its lifetime context before any
close hook on its outputs runs; the `Close() error` form and the bare
`Close()` form are checked independently on every output value (both
fire when both are present); and the collected errors of all factories
are joined, one factory's failure never preventing the teardown of the
rest (the action list does not depend on the collected errors at
all). -/
theorem closeFactories_reverse_teardown (w : CloseWorld) (s : RState) :
    closeFactories w s
      = (((s.sequence.reverse).map fun f => (closeOne w s f).1).flatten,
         ((s.sequence.reverse).map fun f => (closeOne w s f).2).flatten)
    ∧ (∀ f, ((closeOne w s f).1).head? = some (.cancelCtx f))
    ∧ (∀ v outIdx f, w.hasCloseErr v = true → w.hasClose v = true →
        (closeOutputs w f outIdx [v]).1
          = [.closeErr f outIdx, .closeBare f outIdx]) := by
  refine ⟨?_, ?_, ?_⟩
  · have h := closeFromIndex_eq w s s.sequence.length (Nat.le_refl _)
    rw [List.take_length] at h
    exact h
  · intro f
    rfl
  · intro v outIdx f h1 h2
    simp only [closeOutputs, h1, h2, if_true, List.append_nil,
      List.cons_append, List.nil_append]

/-- A three-factory spawned state (sequence `[0, 1, 2]`) and a close
world where every value exposes both close forms, for the C2
witness. -/
def sClose : RState :=
  { fac := [⟨true, some [.base 10 0], 1⟩, ⟨true, some [.base 11 1], 1⟩,
            ⟨true, some [.base 12 2], 1⟩],
    sequence := [0, 1, 2] }

/-- Every value implements both `Close() error` (failing with "c") and
the bare `Close()`. -/
def wBoth : CloseWorld :=
  { hasCloseErr := fun _ => true, closeErrResult := fun _ => some "c",
    hasClose := fun _ => true }

/-- Witness for C2 on the concrete three-factory state: the flattened
reverse-order decomposition holds, the per-factory block starts with the
context cancellation, and both close forms fire on one value. -/
theorem closeFactories_reverse_teardown_witness :
    closeFactories wBoth sClose
      = (((sClose.sequence.reverse).map fun f => (closeOne wBoth sClose f).1).flatten,
         ((sClose.sequence.reverse).map fun f => (closeOne wBoth sClose f).2).flatten)
    ∧ ((closeOne wBoth sClose 2).1).head? = some (.cancelCtx 2)
    ∧ (closeOutputs wBoth 7 0 [.base 10 0]).1
        = [.closeErr 7 0, .closeBare 7 0] := by
  have h := closeFactories_reverse_teardown wBoth sClose
  exact ⟨h.1, h.2.1 2, h.2.2 (.base 10 0) 0 7 rfl rfl⟩

/-! ## C8: repeated `container.Close` -/

/-- A close world in which every output's `Close() error` fails with
"boom". -/
def wErr : CloseWorld :=
  { hasCloseErr := fun _ => true, closeErrResult := fun _ => some "boom",
    hasClose := fun _ => false }

/-- A freshly started container with one spawned factory whose output
will fail to close. -/
def cDemo : CState :=
  { closerDone := false, ctxCancelled := false,
    rstate := { fac := [⟨true, some [.base 10 0], 1⟩], sequence := [0] },
    closeLog := [] }

/-- Counterexample to C8 as stated: the first `Close` of `cDemo` returns
the aggregated close error, but the second call returns nil — `sync.Once`
skips the body, so the named return `err` keeps its zero value — hence
repeated calls do not return the same outcome as the first call. -/
theorem containerClose_second_call_nil_counterexample :
    (containerClose wErr cDemo).2 = some [⟨0, 0, "boom"⟩]
    ∧ (containerClose wErr (containerClose wErr cDemo).1).2 = none
    ∧ ¬ (containerClose wErr (containerClose wErr cDemo).1).2
        = (containerClose wErr cDemo).2 := by
  refine ⟨rfl, rfl, ?_⟩
  decide

/-- C8 (amended): `Close` runs the teardown at most once — any call
after the first returns immediately with a nil error and without
touching the container (in particular the teardown action log is
unchanged); every call returns only with the done context cancelled
(the first call cancels it before returning, later calls observe it);
and the once-flag is set after any call, so a repeat of any call chain
is a no-op returning nil.  (`hwf`: a container whose `sync.Once` has
fired has its context cancelled — true of every reachable state.) -/
theorem containerClose_idempotent_effects (w : CloseWorld) (c : CState)
    (hwf : c.closerDone = true → c.ctxCancelled = true) :
    (c.closerDone = true → containerClose w c = (c, none))
    ∧ (containerClose w c).1.ctxCancelled = true
    ∧ (containerClose w c).1.closerDone = true
    ∧ containerClose w (containerClose w c).1
        = ((containerClose w c).1, none) := by
  cases hd : c.closerDone with
  | true =>
    have hstep : containerClose w c = (c, none) := by
      simp only [containerClose, hd, if_true]
    refine ⟨fun _ => hstep, ?_, ?_, ?_⟩
    · rw [hstep]; exact hwf hd
    · rw [hstep]; exact hd
    · rw [hstep]; exact hstep
  | false =>
    have hstep : containerClose w c
        = ({ closerDone := true, ctxCancelled := true, rstate := c.rstate,
             closeLog := c.closeLog ++ (closeFactories w c.rstate).1 },
           if (closeFactories w c.rstate).2.isEmpty then none
           else some (closeFactories w c.rstate).2) := by
      simp only [containerClose, hd, Bool.false_eq_true, if_false]
    refine ⟨fun h => absurd h Bool.false_ne_true, ?_, ?_, ?_⟩
    · rw [hstep]
    · rw [hstep]
    · rw [hstep]
      simp only [containerClose, if_true]

/-- Witness for the amended C8 on the failing demo container: the second
close is a nil-returning no-op even though the first close errored. -/
theorem containerClose_idempotent_effects_witness :
    ((containerClose wErr cDemo).1.closerDone = true →
      containerClose wErr (containerClose wErr cDemo).1
        = ((containerClose wErr cDemo).1, none))
    ∧ (containerClose wErr (containerClose wErr cDemo).1).1.ctxCancelled = true
    ∧ (containerClose wErr (containerClose wErr cDemo).1).1.closerDone = true
    ∧ containerClose wErr (containerClose wErr
        (containerClose wErr cDemo).1).1
        = ((containerClose wErr
            (containerClose wErr cDemo).1).1, none) :=
  containerClose_idempotent_effects wErr (containerClose wErr cDemo).1
    (fun _ => rfl)

/-! ## C9: surplus event arguments -/

/-- `convertLoop` only consumes the first `NumIn` event arguments:
truncating the argument list at the parameter count never changes the
outcome. -/
theorem convertLoop_take (es : ETySys) :
    ∀ (tys : List Ty) (idx : Nat) (args : List EArg),
      convertLoop es idx tys (args.take tys.length)
        = convertLoop es idx tys args := by
  intro tys
  induction tys with
  | nil => intro idx args; cases args <;> rfl
  | cons t tys ih =>
    intro idx args
    cases args with
    | nil => rfl
    | cons a args =>
      show convertLoop es idx (t :: tys) (a :: args.take tys.length) = _
      cases a with
      | nilArg =>
        cases hn : es.nillable t with
        | true =>
          simp only [convertLoop, hn, if_true]
          rw [ih (idx + 1) args]
        | false =>
          simp only [convertLoop, hn, Bool.false_eq_true, if_false]
      | val at_ tag =>
        cases ha : es.assignable at_ t with
        | true =>
          simp only [convertLoop, ha, if_true]
          rw [ih (idx + 1) args]
        | false =>
          simp only [convertLoop, ha, Bool.false_eq_true, if_false]

/-- A successful `convertLoop` yields exactly `min` of the two lengths
many converted arguments. -/
theorem convertLoop_ok_length (es : ETySys) :
    ∀ (tys : List Ty) (idx : Nat) (args : List EArg) (vals : List HVal),
      convertLoop es idx tys args = .ok vals →
      vals.length = min tys.length args.length := by
  intro tys
  induction tys with
  | nil =>
    intro idx args vals h
    cases args with
    | nil => cases h; rfl
    | cons a args => cases h; rfl
  | cons t tys ih =>
    intro idx args vals h
    cases args with
    | nil => cases h; rfl
    | cons a args =>
      cases a with
      | nilArg =>
        cases hn : es.nillable t with
        | true =>
          rw [convertLoop, if_pos hn] at h
          rcases hrec : convertLoop es (idx + 1) tys args with e | vs
          · rw [hrec] at h; cases h
          · rw [hrec] at h
            cases h
            have := ih (idx + 1) args vs hrec
            simp only [List.length_cons, this, List.length_cons]
            omega
        | false =>
          rw [convertLoop, if_neg (by rw [hn]; exact Bool.false_ne_true)] at h
          cases h
      | val at_ tag =>
        cases ha : es.assignable at_ t with
        | true =>
          rw [convertLoop, if_pos ha] at h
          rcases hrec : convertLoop es (idx + 1) tys args with e | vs
          · rw [hrec] at h; cases h
          · rw [hrec] at h
            cases h
            have := ih (idx + 1) args vs hrec
            simp only [List.length_cons, this, List.length_cons]
            omega
        | false =>
          rw [convertLoop, if_neg (by rw [ha]; exact Bool.false_ne_true)] at h
          cases h

/-- C9: triggering a fixed-parameter handler with more event arguments
than declared parameters silently discards the surplus: the call result
equals the call on the truncated argument list, a successful conversion
passes the handler exactly its `NumIn` converted arguments (no zero
padding), and when the handler itself returns nil, `Trigger` collects no
error for the surplus. -/
theorem callTypedHandler_discards_surplus (es : ETySys) (h : EHandler)
    (args : List EArg) (hlen : h.inTypes.length ≤ args.length) :
    callTypedHandler es h args
      = callTypedHandler es h (args.take h.inTypes.length)
    ∧ (∀ vals, convertLoop es 0 h.inTypes args = .ok vals →
        vals.length = h.inTypes.length
        ∧ callTypedHandler es h args = .ok (h.run vals))
    ∧ (∀ vals, convertLoop es 0 h.inTypes args = .ok vals →
        h.run vals = none → trigger es [h] args = []) := by
  have hvals : ∀ vals, convertLoop es 0 h.inTypes args = .ok vals →
      vals.length = h.inTypes.length := by
    intro vals hok
    rw [convertLoop_ok_length es h.inTypes 0 args vals hok]
    omega
  have hcall : ∀ vals, convertLoop es 0 h.inTypes args = .ok vals →
      callTypedHandler es h args = .ok (h.run vals) := by
    intro vals hok
    rw [callTypedHandler, hok]
    show Except.ok (h.run (vals ++ (h.inTypes.drop vals.length).map HVal.zero))
      = _
    rw [hvals vals hok, List.drop_length, List.map_nil, List.append_nil]
  refine ⟨?_, fun vals hok => ⟨hvals vals hok, hcall vals hok⟩, ?_⟩
  · rw [callTypedHandler, callTypedHandler,
      convertLoop_take es h.inTypes 0 args]
  · intro vals hok hrun
    show List.filterMap _ [h] = []
    rw [List.filterMap_cons]
    rw [show handlerTriggerErr es h args = none from by
      rw [handlerTriggerErr, hcall vals hok, hrun]]
    rfl

/-- The identity-assignability environment for the C9 witness. -/
def esId : ETySys :=
  { nillable := fun _ => false, assignable := fun a b => a == b }

/-- A two-parameter handler (types 50 and 51) that always succeeds. -/
def hTwo : EHandler := { inTypes := [50, 51], run := fun _ => none }

/-- Witness for C9, mirroring the repository's own events test: a
handler of two parameters triggered with three arguments runs on the
first two and produces no error. -/
theorem callTypedHandler_discards_surplus_witness :
    callTypedHandler esId hTwo [.val 50 1, .val 51 2, .val 52 3]
      = callTypedHandler esId hTwo
          ([.val 50 1, .val 51 2, .val 52 3].take hTwo.inTypes.length)
    ∧ ([HVal.val 50 1, HVal.val 51 2].length = hTwo.inTypes.length
        ∧ callTypedHandler esId hTwo [.val 50 1, .val 51 2, .val 52 3]
            = .ok (hTwo.run [HVal.val 50 1, HVal.val 51 2]))
    ∧ trigger esId [hTwo] [.val 50 1, .val 51 2, .val 52 3] = [] := by
  have h := callTypedHandler_discards_surplus esId hTwo
    [.val 50 1, .val 51 2, .val 52 3] (by decide)
  exact ⟨h.1, h.2.1 [HVal.val 50 1, HVal.val 51 2] rfl,
    h.2.2 [HVal.val 50 1, HVal.val 51 2] rfl rfl⟩

/-! ## C10: `events.Subscribe` validation panics -/

/-- C10: `Subscribe` completes without panicking exactly for function
handlers whose output signature is empty or a single error-implementing
type; every non-function value and every function with a different
output signature panics. -/
theorem subscribePanics_iff_invalid (implsErr : Ty → Bool)
    (h : HandlerFnRepr) :
    subscribePanics implsErr h = false
      ↔ ∃ ins outs, h = .fn ins outs
          ∧ (outs = [] ∨ ∃ o, outs = [o] ∧ implsErr o = true) := by
  cases h with
  | notFunc =>
    constructor
    · intro hc; simp [subscribePanics] at hc
    · rintro ⟨ins, outs, hfn, _⟩; cases hfn
  | fn ins outs =>
    cases outs with
    | nil =>
      constructor
      · intro _; exact ⟨ins, [], rfl, Or.inl rfl⟩
      · intro _; rfl
    | cons o rest =>
      cases rest with
      | nil =>
        constructor
        · intro himpl
          exact ⟨ins, [o], rfl, Or.inr ⟨o, rfl, by simpa [subscribePanics] using himpl⟩⟩
        · rintro ⟨ins', outs', hfn, hcase⟩
          cases hfn
          rcases hcase with hnil | ⟨o', ho', himpl⟩
          · cases hnil
          · cases ho'
            show (!implsErr o) = false
            rw [himpl]
            rfl
      | cons o2 rest2 =>
        constructor
        · intro hc; simp [subscribePanics] at hc
        · rintro ⟨ins', outs', hfn, hcase⟩
          cases hfn
          rcases hcase with hnil | ⟨o', ho', _⟩
          · cases hnil
          · injection ho' with h1 h2
            cases h2

end Gontainer
